import Mathlib

/-!
Shallow embedding of the `dj5-blog` Django application (`mysite/blog`):
the `Post`/`Comment` data model (`blog/models.py`), the forms
(`blog/forms.py`) and the five views (`blog/views.py`), together with the
framework pieces the code leans on (`Paginator`, `get_object_or_404`,
`ListView.paginate_queryset`, `send_mail`), modelled by their documented
semantics.  The database is a plain in-memory record of rows; querysets are
lists; view functions are total Lean functions returning `Except` to mirror
`Http404` / `405` responses.
-/

namespace Blog

/-! ### Generic ordering helpers (ORM `order_by` semantics)

`order_by("-k")` sorts descending by the key `k`; we model it with
`List.insertionSort` under the relation "my key is ≥ yours", which is a
total transitive relation whenever keys live in a linear order. -/

/-- The relation used by a descending `order_by`: `a` comes before `b`
when `a`'s key is at least `b`'s key. -/
def keyDescRel {α κ : Type} [LinearOrder κ] (key : α → κ) : α → α → Prop :=
  fun a b => key b ≤ key a

/-- The relation used by an ascending `order_by`. -/
def keyAscRel {α κ : Type} [LinearOrder κ] (key : α → κ) : α → α → Prop :=
  fun a b => key a ≤ key b

instance {α κ : Type} [LinearOrder κ] (key : α → κ) : DecidableRel (keyDescRel key) :=
  fun a b => inferInstanceAs (Decidable (key b ≤ key a))

instance {α κ : Type} [LinearOrder κ] (key : α → κ) : DecidableRel (keyAscRel key) :=
  fun a b => inferInstanceAs (Decidable (key a ≤ key b))

instance {α κ : Type} [LinearOrder κ] (key : α → κ) : IsTotal α (keyDescRel key) :=
  ⟨fun a b => le_total (key b) (key a)⟩

instance {α κ : Type} [LinearOrder κ] (key : α → κ) : IsTotal α (keyAscRel key) :=
  ⟨fun a b => le_total (key a) (key b)⟩

instance {α κ : Type} [LinearOrder κ] (key : α → κ) : IsTrans α (keyDescRel key) :=
  ⟨fun _ _ _ h1 h2 => le_trans h2 h1⟩

instance {α κ : Type} [LinearOrder κ] (key : α → κ) : IsTrans α (keyAscRel key) :=
  ⟨fun _ _ _ h1 h2 => le_trans h1 h2⟩

/-- Model of `order_by` descending on a key. -/
def sortByKeyDesc {α κ : Type} [LinearOrder κ] (key : α → κ) (l : List α) : List α :=
  List.insertionSort (keyDescRel key) l

/-- Model of `order_by` ascending on a key. -/
def sortByKeyAsc {α κ : Type} [LinearOrder κ] (key : α → κ) (l : List α) : List α :=
  List.insertionSort (keyAscRel key) l

/-! ### Data model (`blog/models.py`) -/

/-- Model of `Post.Status`: the `TextChoices` enum with members `DRAFT = "DF"` and
`PUBLISHED = "PB"`. -/
inductive Status where
  | draft
  | published
deriving DecidableEq, Repr

/-- A timestamp as stored in a `DateTimeField`: calendar date plus
time-of-day (seconds within the day, enough for ordering). -/
structure DateTime where
  year : Nat
  month : Nat
  day : Nat
  tod : Nat
deriving DecidableEq, Repr

/-- The sort key of a `DateTimeField`: lexicographic on
(year, month, day, time-of-day). -/
def DateTime.key (d : DateTime) : Nat ×ₗ (Nat ×ₗ (Nat ×ₗ Nat)) :=
  toLex (d.year, toLex (d.month, toLex (d.day, d.tod)))

/-- A row of the `Post` table.  `author` is the FK to the user model,
`tags` the set of taggit `Tag` ids attached through the M2M table. -/
structure Post where
  id : Nat
  title : String
  slug : String
  author : Nat
  body : String
  publish : DateTime
  created : DateTime
  updated : DateTime
  status : Status
  tags : List Nat
deriving DecidableEq, Repr

/-- A row of the taggit `Tag` table. -/
structure Tag where
  id : Nat
  name : String
  slug : String
deriving DecidableEq, Repr

/-- A row of the `Comment` table (FK `post`, `active` defaults to `True`). -/
structure Comment where
  id : Nat
  postId : Nat
  name : String
  email : String
  body : String
  created : Nat
  updated : Nat
  active : Bool
deriving DecidableEq, Repr

/-- The database state: the stored rows of the three tables, plus the next
auto-increment id for comments. -/
structure DB where
  posts : List Post
  tags : List Tag
  comments : List Comment
  nextCommentId : Nat
deriving DecidableEq, Repr

/-- Model of `PublishedManager.get_queryset`: the default queryset filtered to
`status=Post.Status.PUBLISHED`, with the model `Meta` ordering
`["-publish"]` applied. -/
def Post.published (db : DB) : List Post :=
  sortByKeyDesc (fun p : Post => p.publish.key)
    (db.posts.filter (fun p => decide (p.status = Status.published)))

/-- A draft post and a published post to exercise the theorems on. -/
def someDate : DateTime := ⟨2024, 5, 10, 3600⟩

def draftPost : Post :=
  ⟨1, "Draft title", "draft-title", 1, "body", someDate, someDate, someDate,
    Status.draft, [1]⟩

def publishedPost : Post :=
  ⟨2, "Hello world", "hello-world", 1, "body", ⟨2024, 6, 1, 0⟩, someDate, someDate,
    Status.published, [1, 2]⟩

def demoDB : DB :=
  ⟨[draftPost, publishedPost], [⟨1, "django", "django"⟩, ⟨2, "lean", "lean"⟩], [], 0⟩

/-- The slug of `publishedPost`. -/
def helloSlug : String := "hello-world"

/-- A slug matching no stored tag. -/
def missingSlug : String := "missing-tag"

/-- A sample search query. -/
def helloQuery : String := "hello"

/-! ### Framework pieces: errors, `Paginator`, `get_object_or_404` -/

/-- The error responses a view can produce: `Http404` (raised by
`get_object_or_404` and by `ListView` on a bad page),
`MultipleObjectsReturned` (raised by `Model.objects.get` when more than one
row matches) and `405 Method Not Allowed` (raised by `require_POST`). -/
inductive ViewError where
  | http404
  | multipleObjects
  | methodNotAllowed
deriving DecidableEq, Repr

/-- Model of `get_object_or_404` applied to the rows matching the lookup: `Http404`
on no match, the row on a unique match, `MultipleObjectsReturned`
otherwise. -/
def getObjectOr404 {α : Type} (rows : List α) : Except ViewError α :=
  match rows with
  | [] => Except.error ViewError.http404
  | [a] => Except.ok a
  | _ :: _ :: _ => Except.error ViewError.multipleObjects

/-- The `page` GET parameter after Python's `int()` conversion: either an
integer, or `notAnInt` when `int()` raises (a non-numeric string). -/
inductive PageParam where
  | int (n : Int)
  | notAnInt
deriving DecidableEq, Repr

/-- The two exceptions `Paginator.validate_number` can raise. -/
inductive PageError where
  | pageNotAnInteger
  | emptyPage
deriving DecidableEq, Repr

/-- Model of `django.core.paginator.Paginator(object_list, per_page)` with the
default `orphans=0, allow_empty_first_page=True`. -/
structure Paginator (α : Type) where
  objectList : List α
  perPage : Nat
deriving Repr

/-- Model of `Paginator.count`. -/
def Paginator.count {α : Type} (p : Paginator α) : Nat :=
  p.objectList.length

/-- Model of `Paginator.num_pages = ceil(max(1, count) / per_page)` (with
`allow_empty_first_page=True` and `orphans=0`). -/
def Paginator.numPages {α : Type} (p : Paginator α) : Nat :=
  (max 1 p.count + p.perPage - 1) / p.perPage

/-- Model of `Paginator.validate_number`: `PageNotAnInteger` when `int()` failed,
`EmptyPage` when the number is below 1 or above `num_pages` (except that
page 1 of an empty paginator is allowed). -/
def Paginator.validateNumber {α : Type} (p : Paginator α) (param : PageParam) :
    Except PageError Nat :=
  match param with
  | PageParam.notAnInt => Except.error PageError.pageNotAnInteger
  | PageParam.int n =>
    if n < 1 then Except.error PageError.emptyPage
    else if (p.numPages : Int) < n then
      if n = 1 then Except.ok 1 else Except.error PageError.emptyPage
    else Except.ok n.toNat

/-- The objects on page `n` (1-based): `object_list[(n-1)*per : n*per]`. -/
def Paginator.pageItems {α : Type} (p : Paginator α) (n : Nat) : List α :=
  (p.objectList.drop ((n - 1) * p.perPage)).take p.perPage

/-- Model of `Paginator.page(number)`: validate, then return the page number and its
objects. -/
def Paginator.page {α : Type} (p : Paginator α) (param : PageParam) :
    Except PageError (Nat × List α) :=
  (p.validateNumber param).map (fun n => (n, p.pageItems n))

/-! ### `post_list` (function-based view) -/

/-- The `get_object_or_404(Tag, slug=tag_slug)` lookup: the stored tags whose
slug matches.  taggit's `Tag.slug` is unique, so at most one row matches in
any real database. -/
def findTagMatches (db : DB) (slug : String) : List Tag :=
  db.tags.filter (fun t => t.slug == slug)

/-- The queryset built by `post_list` before pagination: all published
posts, optionally filtered (`tags__in=[tag]`) to those carrying the tag
looked up by slug; `Http404` when the slug matches no tag.  Returns the
queryset together with the `tag` context variable. -/
def postListQuerySet (db : DB) (tagSlug : Option String) :
    Except ViewError (List Post × Option Tag) :=
  match tagSlug with
  | none => Except.ok (Post.published db, none)
  | some s =>
    match getObjectOr404 (findTagMatches db s) with
    | Except.error e => Except.error e
    | Except.ok t =>
      Except.ok ((Post.published db).filter (fun p => p.tags.contains t.id), some t)

/-- The rendering context of `post_list`: the chosen page of posts (with
its 1-based number) and the optional tag. -/
structure PostListRender where
  pageNumber : Nat
  posts : List Post
  tag : Option Tag
deriving DecidableEq, Repr

/-- The `try/except` block of `post_list`: deliver the requested page,
falling back to page 1 on `PageNotAnInteger` and to the last page on
`EmptyPage`. -/
def resolvePage {α : Type} (p : Paginator α) (param : PageParam) : Nat × List α :=
  match p.page param with
  | Except.ok r => r
  | Except.error PageError.pageNotAnInteger => (1, p.pageItems 1)
  | Except.error PageError.emptyPage => (p.numPages, p.pageItems p.numPages)

/-- The `post_list` view: build the (optionally tag-filtered) published
queryset, paginate it three per page, and render the resolved page. -/
def post_list (db : DB) (tagSlug : Option String) (param : PageParam) :
    Except ViewError PostListRender :=
  match postListQuerySet db tagSlug with
  | Except.error e => Except.error e
  | Except.ok (ql, tag) =>
    let pg : Paginator Post := ⟨ql, 3⟩
    let r := resolvePage pg param
    Except.ok ⟨r.1, r.2, tag⟩

/-! ### `PostListView` (class-based view) -/

/-- The `page` parameter as `ListView.paginate_queryset` sees it: an
integer, the literal string `"last"`, or any other non-integer string. -/
inductive ListViewPage where
  | num (n : Int)
  | last
  | invalid
deriving DecidableEq, Repr

/-- Model of `PostListView`: `ListView` over `Post.published.all()` with
`paginate_by = 3`.  `paginate_queryset` turns `"last"` into the last page
number, raises `Http404` for other non-integers, and raises `Http404`
(rather than clamping) when `Paginator.page` raises `InvalidPage`. -/
def PostListView.render (db : DB) (param : ListViewPage) :
    Except ViewError (Nat × List Post) :=
  let pg : Paginator Post := ⟨Post.published db, 3⟩
  match param with
  | ListViewPage.invalid => Except.error ViewError.http404
  | ListViewPage.last =>
    match pg.page (PageParam.int pg.numPages) with
    | Except.ok r => Except.ok r
    | Except.error _ => Except.error ViewError.http404
  | ListViewPage.num n =>
    match pg.page (PageParam.int n) with
    | Except.ok r => Except.ok r
    | Except.error _ => Except.error ViewError.http404

/-! ### `post_detail` -/

/-- The rows matching the `post_detail` lookup:
`status=PUBLISHED, slug=post, publish__year=year, publish__month=month,
publish__day=day`. -/
def detailMatches (db : DB) (year month day : Nat) (slug : String) : List Post :=
  db.posts.filter (fun p =>
    decide (p.status = Status.published) && (p.slug == slug) &&
      (p.publish.year == year) && (p.publish.month == month) && (p.publish.day == day))

/-- Model of `post.comments.filter(active=True)`: the comments whose FK points at
the post and whose `active` flag is set, in the `Comment.Meta` ordering
`["created"]`. -/
def activeComments (db : DB) (post : Post) : List Comment :=
  sortByKeyAsc (fun c : Comment => c.created)
    (db.comments.filter (fun c => (c.postId == post.id) && c.active))

/-- Model of `annotate(same_tags=Count("tags"))` after `filter(tags__in=ids)`: the
number of the row's tags that are among `ids`. -/
def sameTagsCount (ids : List Nat) (p : Post) : Nat :=
  (p.tags.filter (fun t => ids.contains t)).length

/-- The similar-posts queryset of `post_detail`:
`Post.published.filter(tags__in=post_tags_ids).exclude(id=post.id)`
annotated with the shared-tag count, ordered by
`("-same_tags", "-publish")` and sliced to 4. -/
def similar_posts (db : DB) (post : Post) : List Post :=
  let ids := post.tags
  let candidates :=
    (db.posts.filter (fun p => decide (p.status = Status.published))).filter
      (fun p => p.tags.any (fun t => ids.contains t) && decide (p.id ≠ post.id))
  (sortByKeyDesc (fun p => toLex (sameTagsCount ids p, p.publish.key)) candidates).take 4

/-- The rendering context of `post_detail`. -/
structure PostDetailRender where
  post : Post
  comments : List Comment
  similarPosts : List Post
deriving DecidableEq, Repr

/-- The `post_detail` view. -/
def post_detail (db : DB) (year month day : Nat) (slug : String) :
    Except ViewError PostDetailRender :=
  match getObjectOr404 (detailMatches db year month day slug) with
  | Except.error e => Except.error e
  | Except.ok post => Except.ok ⟨post, activeComments db post, similar_posts db post⟩

/-! ### `post_share` and `post_comment` -/

/-- The HTTP method of a request (the views distinguish only POST from the
rest; `require_POST` rejects everything else with a 405). -/
inductive Method where
  | get
  | post
deriving DecidableEq, Repr

/-- Whitespace stripping as Django form `CharField`s perform before
validation (`strip=True`): drop whitespace from both ends. -/
def stripStr (s : String) : String :=
  String.mk (((s.data.dropWhile Char.isWhitespace).reverse.dropWhile
    Char.isWhitespace).reverse)

/-- An abstraction of `django.core.validators.EmailValidator` keeping its
essentials: exactly one `@` separating a nonempty local part from a
nonempty domain, and no whitespace.  The claims about the views are
conditioned on form validity and do not depend on the validator's finer
points. -/
def validEmailAddr (s : String) : Bool :=
  let cs := s.data
  (cs.count '@' == 1) &&
    !((cs.takeWhile (fun ch => ch != '@')).isEmpty) &&
    !(((cs.dropWhile (fun ch => ch != '@')).drop 1).isEmpty) &&
    !(cs.any Char.isWhitespace)

/-- The raw data bound to an `EmailPostForm`. -/
structure EmailFormData where
  name : String
  email : String
  toEmail : String
  comments : String
deriving DecidableEq, Repr

/-- Model of `EmailPostForm.is_valid()`: `name` is a required `CharField` with
`max_length=25`, `email` and `to` are required `EmailField`s, and
`comments` is optional.  Django `CharField`s strip whitespace before
validating. -/
def EmailPostForm.is_valid (d : EmailFormData) : Bool :=
  decide (stripStr d.name ≠ "") && decide ((stripStr d.name).length ≤ 25) &&
    validEmailAddr (stripStr d.email) && validEmailAddr (stripStr d.toEmail)

/-- Model of `form.cleaned_data`: the stripped field values. -/
def EmailPostForm.cleaned (d : EmailFormData) : EmailFormData :=
  ⟨stripStr d.name, stripStr d.email, stripStr d.toEmail, stripStr d.comments⟩

/-- One call to `django.core.mail.send_mail`. -/
structure Email where
  subject : String
  message : String
  fromEmail : Option String
  recipients : List String
deriving DecidableEq, Repr

/-- Modelled from the spec: `blog/urls.py` is not among the sources; per
the `get_absolute_url` docstring and `mysite/urls.py` the `blog:post_detail`
route is mounted under `blog/` and takes the publish year, month, day and
the slug as positional arguments. -/
def Post.get_absolute_url (p : Post) : String :=
  "/blog/" ++ toString p.publish.year ++ "/" ++ toString p.publish.month ++ "/" ++
    toString p.publish.day ++ "/" ++ p.slug ++ "/"

/-- A request to `post_share`: the method, the bound form data (used only
on POST) and the scheme-plus-host prefix that
`request.build_absolute_uri` puts in front of an absolute path. -/
structure ShareRequest where
  method : Method
  formData : EmailFormData
  uriBase : String
deriving DecidableEq, Repr

/-- The rendering context of `post_share` (`post` and the `sent` flag; the
bound form adds nothing observable). -/
structure ShareRender where
  post : Post
  sent : Bool
deriving DecidableEq, Repr

/-- The rows matching `get_object_or_404(Post, id=post_id,
status=Post.Status.PUBLISHED)` (used by both `post_share` and
`post_comment`). -/
def publishedById (db : DB) (postId : Nat) : List Post :=
  db.posts.filter (fun p => (p.id == postId) && decide (p.status = Status.published))

/-- The email subject built in `post_share`:
`f"{cd[name]} ({cd[email]}) recommends you read {post.title}"`. -/
def shareSubject (cd : EmailFormData) (post : Post) : String :=
  cd.name ++ " (" ++ cd.email ++ ") recommends you read " ++ post.title

/-- The email body built in `post_share`:
`f"Read {post.title} at {post_url}\n\n{cd[name]}'s comments: {cd[comments]}"`. -/
def shareMessage (cd : EmailFormData) (post : Post) (postUrl : String) : String :=
  "Read " ++ post.title ++ " at " ++ postUrl ++ "\n\n" ++
    cd.name ++ "\x27s comments: " ++ cd.comments

/-- The `post_share` view: look up the published post by id, and on a
valid POST send exactly one email built from the cleaned form data; the
view also returns the list of emails sent while handling the request. -/
def post_share (db : DB) (postId : Nat) (req : ShareRequest) :
    Except ViewError (ShareRender × List Email) :=
  match getObjectOr404 (publishedById db postId) with
  | Except.error e => Except.error e
  | Except.ok post =>
    match req.method with
    | Method.get => Except.ok (⟨post, false⟩, [])
    | Method.post =>
      if EmailPostForm.is_valid req.formData then
        let cd := EmailPostForm.cleaned req.formData
        let postUrl := req.uriBase ++ post.get_absolute_url
        Except.ok (⟨post, true⟩,
          [⟨shareSubject cd post, shareMessage cd post postUrl, none, [cd.toEmail]⟩])
      else Except.ok (⟨post, false⟩, [])

/-- The raw data bound to a `CommentForm` (`fields = [name, email, body]`). -/
structure CommentFormData where
  name : String
  email : String
  body : String
deriving DecidableEq, Repr

/-- Model of `CommentForm.is_valid()`: `name` is a required `CharField` with
`max_length=80`, `email` a required `EmailField`, `body` a required text
field. -/
def CommentForm.is_valid (d : CommentFormData) : Bool :=
  decide (stripStr d.name ≠ "") && decide ((stripStr d.name).length ≤ 80) &&
    validEmailAddr (stripStr d.email) && decide (stripStr d.body ≠ "")

/-- Model of `form.cleaned_data` of a `CommentForm`. -/
def CommentForm.cleaned (d : CommentFormData) : CommentFormData :=
  ⟨stripStr d.name, stripStr d.email, stripStr d.body⟩

/-- The `post_comment` view (decorated with `require_POST`): on a valid
POST, `form.save(commit=False)` builds a comment, the view points its
`post` FK at the published post looked up by id, and saves it (`active`
takes its model default `True`, `created`/`updated` the current time).
Returns the new database state and the saved comment, if any. -/
def post_comment (db : DB) (postId : Nat) (method : Method) (data : CommentFormData)
    (now : Nat) : Except ViewError (DB × Option Comment) :=
  match method with
  | Method.get => Except.error ViewError.methodNotAllowed
  | Method.post =>
    match getObjectOr404 (publishedById db postId) with
    | Except.error e => Except.error e
    | Except.ok post =>
      if CommentForm.is_valid data then
        let cd := CommentForm.cleaned data
        let c : Comment :=
          ⟨db.nextCommentId, post.id, cd.name, cd.email, cd.body, now, now, true⟩
        Except.ok
          ({ db with
              comments := db.comments ++ [c],
              nextCommentId := db.nextCommentId + 1 }, some c)
      else Except.ok (db, none)

/-! ### `post_search` -/

/-- Modelled from the spec: `SearchForm` is imported from `blog/forms.py`
but its definition is missing from the sources; per the view's use of
`form.cleaned_data["query"]` it has one required `CharField` named
`query`, which strips whitespace and rejects the empty value.  `none`
means the form is invalid. -/
def SearchForm.cleanQuery (raw : String) : Option String :=
  if stripStr raw = "" then none else some (stripStr raw)

/-- The rendering context of `post_search`. -/
structure SearchRender where
  query : Option String
  results : List Post
deriving Repr

/-- The `post_search` view, parameterised by the similarity measure `sim`
(PostgreSQL's `TrigramSimilarity`, computed by the database, modelled as
an opaque-to-the-view rational-valued function): when the GET parameters
carry `query` and the form validates, the published posts whose title has
similarity above 0.1 are returned ordered by similarity descending. -/
def post_search (sim : String → String → ℚ) (db : DB)
    (queryParam : Option String) : SearchRender :=
  match queryParam with
  | none => ⟨none, []⟩
  | some raw =>
    match SearchForm.cleanQuery raw with
    | none => ⟨none, []⟩
    | some q =>
      ⟨some q,
        sortByKeyDesc (fun p => sim p.title q)
          ((db.posts.filter (fun p => decide (p.status = Status.published))).filter
            (fun p => decide ((1 : ℚ) / 10 < sim p.title q)))⟩

/-- A concrete valid share request to exercise `post_share_spec`. -/
def demoShareReq : ShareRequest :=
  ⟨Method.post, ⟨"Ann", "ann@example.com", "bob@example.com", "check this out"⟩,
    "https://example.com"⟩

theorem mem_sortByKeyDesc {α κ : Type} [LinearOrder κ] (key : α → κ) (l : List α) (a : α) :
    a ∈ sortByKeyDesc key l ↔ a ∈ l := by
  simp [sortByKeyDesc]

theorem mem_sortByKeyAsc {α κ : Type} [LinearOrder κ] (key : α → κ) (l : List α) (a : α) :
    a ∈ sortByKeyAsc key l ↔ a ∈ l := by
  simp [sortByKeyAsc]

theorem sorted_sortByKeyDesc {α κ : Type} [LinearOrder κ] (key : α → κ) (l : List α) :
    List.Sorted (keyDescRel key) (sortByKeyDesc key l) :=
  List.sorted_insertionSort (keyDescRel key) l

theorem sorted_sortByKeyAsc {α κ : Type} [LinearOrder κ] (key : α → κ) (l : List α) :
    List.Sorted (keyAscRel key) (sortByKeyAsc key l) :=
  List.sorted_insertionSort (keyAscRel key) l

theorem mem_published (db : DB) (p : Post) :
    p ∈ Post.published db ↔ p ∈ db.posts ∧ p.status = Status.published := by
  simp [Post.published, mem_sortByKeyDesc, List.mem_filter]

/-- C1: a DRAFT post is excluded from `Post.published`; every post it
returns is PUBLISHED; and membership in the derived view is exactly
membership in the stored posts with status PUBLISHED. -/
theorem published_manager_spec (db : DB) (p : Post) :
    (p ∈ Post.published db ↔ p ∈ db.posts ∧ p.status = Status.published) ∧
    (p.status = Status.draft → p ∉ Post.published db) ∧
    (p ∈ Post.published db → p.status = Status.published) := by
  refine ⟨mem_published db p, ?_, ?_⟩
  · intro hd hm
    rw [mem_published] at hm
    rw [hd] at hm
    exact absurd hm.2 (by simp)
  · intro hm
    exact ((mem_published db p).mp hm).2

theorem published_manager_spec_witness :
    draftPost.status = Status.draft ∧ draftPost ∉ Post.published demoDB :=
  ⟨by decide, (published_manager_spec demoDB draftPost).2.1 (by decide)⟩

/-! ### Pagination lemmas -/

theorem Paginator.one_le_numPages {α : Type} (p : Paginator α) (h : 0 < p.perPage) :
    1 ≤ p.numPages := by
  unfold Paginator.numPages
  rw [Nat.le_div_iff_mul_le h]
  omega

theorem resolvePage_notAnInt {α : Type} (p : Paginator α) :
    resolvePage p PageParam.notAnInt = (1, p.pageItems 1) := rfl

theorem resolvePage_out_of_range {α : Type} (p : Paginator α) (n : Int)
    (h0 : 0 < p.perPage) (h : (p.numPages : Int) < n) :
    resolvePage p (PageParam.int n) = (p.numPages, p.pageItems p.numPages) := by
  have h1 : 1 ≤ p.numPages := p.one_le_numPages h0
  have h1i : (1 : Int) ≤ (p.numPages : Int) := by exact_mod_cast h1
  have hn1 : ¬ n < 1 := by omega
  have hne : ¬ n = 1 := by omega
  simp only [resolvePage, Paginator.page, Paginator.validateNumber,
    if_neg hn1, if_pos h, if_neg hne]
  rfl

theorem resolvePage_bounds {α : Type} (p : Paginator α) (h0 : 0 < p.perPage)
    (param : PageParam) :
    ∃ n, resolvePage p param = (n, p.pageItems n) ∧ 1 ≤ n ∧ n ≤ p.numPages := by
  have h1 : 1 ≤ p.numPages := p.one_le_numPages h0
  cases param with
  | notAnInt => exact ⟨1, rfl, le_refl 1, h1⟩
  | int n =>
    simp only [resolvePage, Paginator.page, Paginator.validateNumber]
    by_cases hn1 : n < 1
    · rw [if_pos hn1]
      exact ⟨p.numPages, rfl, h1, le_refl _⟩
    · rw [if_neg hn1]
      by_cases hgt : (p.numPages : Int) < n
      · rw [if_pos hgt]
        by_cases he : n = 1
        · rw [if_pos he]
          exact ⟨1, rfl, le_refl 1, h1⟩
        · rw [if_neg he]
          exact ⟨p.numPages, rfl, h1, le_refl _⟩
      · rw [if_neg hgt]
        refine ⟨n.toNat, rfl, by omega, by omega⟩

theorem Paginator.page_ok {α : Type} (p : Paginator α) (param : PageParam)
    (n : Nat) (items : List α) (h0 : 0 < p.perPage)
    (h : p.page param = Except.ok (n, items)) :
    items = p.pageItems n ∧ 1 ≤ n ∧ n ≤ p.numPages := by
  have h1 : 1 ≤ p.numPages := p.one_le_numPages h0
  cases param with
  | notAnInt =>
    exact absurd h (by simp [Paginator.page, Paginator.validateNumber, Except.map])
  | int m =>
    simp only [Paginator.page, Paginator.validateNumber] at h
    by_cases hm1 : m < 1
    · rw [if_pos hm1] at h
      exact absurd h (by simp [Except.map])
    · rw [if_neg hm1] at h
      by_cases hgt : (p.numPages : Int) < m
      · rw [if_pos hgt] at h
        by_cases he : m = 1
        · rw [if_pos he] at h
          simp only [Except.map, Except.ok.injEq, Prod.mk.injEq] at h
          refine ⟨by rw [← h.1, ← h.2], by omega, by omega⟩
        · rw [if_neg he] at h
          exact absurd h (by simp [Except.map])
      · rw [if_neg hgt] at h
        simp only [Except.map, Except.ok.injEq, Prod.mk.injEq] at h
        refine ⟨by rw [← h.1, ← h.2], by omega, by omega⟩

theorem pageItems_length_le {α : Type} (p : Paginator α) (n : Nat) :
    (p.pageItems n).length ≤ p.perPage := by
  simp only [Paginator.pageItems, List.length_take, List.length_drop]
  omega

/-- A page strictly before the last page of a three-per-page paginator is
full. -/
theorem pageItems_full_three {α : Type} (l : List α) (n : Nat) (h1 : 1 ≤ n)
    (h2 : n < (Paginator.mk l 3).numPages) :
    ((Paginator.mk l 3).pageItems n).length = 3 := by
  simp only [Paginator.numPages, Paginator.count] at h2
  have key : n + 1 ≤ (max 1 l.length + 3 - 1) / 3 := h2
  rw [Nat.le_div_iff_mul_le (by norm_num)] at key
  simp only [Paginator.pageItems, List.length_take, List.length_drop]
  omega

/-- C2: when the queryset resolves (the tag slug, if any, exists), the
`post_list` view returns the first page on a non-integer page parameter,
the last page on an out-of-range page number, and never fails. -/
theorem post_list_page_fallbacks (db : DB) (tagSlug : Option String)
    (param : PageParam) (ql : List Post) (tag : Option Tag)
    (hq : postListQuerySet db tagSlug = Except.ok (ql, tag)) :
    (param = PageParam.notAnInt →
       post_list db tagSlug param =
         Except.ok ⟨1, (Paginator.mk ql 3).pageItems 1, tag⟩) ∧
    (∀ n : Int, param = PageParam.int n → ((Paginator.mk ql 3).numPages : Int) < n →
       post_list db tagSlug param =
         Except.ok ⟨(Paginator.mk ql 3).numPages,
           (Paginator.mk ql 3).pageItems (Paginator.mk ql 3).numPages, tag⟩) ∧
    (∃ r, post_list db tagSlug param = Except.ok r) := by
  refine ⟨?_, ?_, ?_⟩
  · intro hp
    subst hp
    simp only [post_list, hq, resolvePage_notAnInt]
  · intro n hp hgt
    subst hp
    simp only [post_list, hq,
      resolvePage_out_of_range (Paginator.mk ql 3) n (by norm_num) hgt]
  · obtain ⟨n, hn, -, -⟩ := resolvePage_bounds (Paginator.mk ql 3) (by norm_num) param
    exact ⟨⟨n, (Paginator.mk ql 3).pageItems n, tag⟩, by simp only [post_list, hq, hn]⟩

theorem post_list_page_fallbacks_witness :
    post_list demoDB none PageParam.notAnInt =
      Except.ok ⟨1, (Paginator.mk (Post.published demoDB) 3).pageItems 1, none⟩ :=
  (post_list_page_fallbacks demoDB none PageParam.notAnInt
    (Post.published demoDB) none rfl).1 rfl

theorem getObjectOr404_ok {α : Type} {rows : List α} {a : α}
    (h : getObjectOr404 rows = Except.ok a) : rows = [a] := by
  cases rows with
  | nil => exact absurd h (by simp [getObjectOr404])
  | cons x xs =>
    cases xs with
    | nil =>
      simp only [getObjectOr404, Except.ok.injEq] at h
      rw [h]
    | cons y ys => exact absurd h (by simp [getObjectOr404])

theorem getObjectOr404_nil {α : Type} :
    getObjectOr404 ([] : List α) = Except.error ViewError.http404 := rfl

/-- C9 (amended): every page rendered by `post_list` or by
`PostListView` holds at most 3 posts, and holds fewer than 3 only when it
is the last page of its paginator. -/
theorem rendered_pages_at_most_three (db : DB) :
    (∀ tagSlug param ql tag r,
       postListQuerySet db tagSlug = Except.ok (ql, tag) →
       post_list db tagSlug param = Except.ok r →
       r.posts.length ≤ 3 ∧
         (r.posts.length < 3 → r.pageNumber = (Paginator.mk ql 3).numPages)) ∧
    (∀ param n items,
       PostListView.render db param = Except.ok (n, items) →
       items.length ≤ 3 ∧
         (items.length < 3 → n = (Paginator.mk (Post.published db) 3).numPages)) := by
  constructor
  · intro tagSlug param ql tag r hq hr
    obtain ⟨n, hn, hn1, hn2⟩ := resolvePage_bounds (Paginator.mk ql 3) (by norm_num) param
    simp only [post_list, hq, hn, Except.ok.injEq] at hr
    have hposts : r.posts = (Paginator.mk ql 3).pageItems n := by rw [← hr]
    have hnum : r.pageNumber = n := by rw [← hr]
    rw [hposts, hnum]
    refine ⟨pageItems_length_le _ n, ?_⟩
    intro hlt
    by_contra hne
    have hfull := pageItems_full_three ql n hn1 (lt_of_le_of_ne hn2 hne)
    omega
  · intro param n items hr
    have hmain : ∀ m : Int, (Paginator.mk (Post.published db) 3).page (PageParam.int m) =
        Except.ok (n, items) →
        items.length ≤ 3 ∧
          (items.length < 3 → n = (Paginator.mk (Post.published db) 3).numPages) := by
      intro m hm
      obtain ⟨hitems, hn1, hn2⟩ :=
        (Paginator.mk (Post.published db) 3).page_ok (PageParam.int m) n items
          (by norm_num) hm
      rw [hitems]
      refine ⟨pageItems_length_le _ n, ?_⟩
      intro hlt
      by_contra hne
      have hfull := pageItems_full_three (Post.published db) n hn1 (lt_of_le_of_ne hn2 hne)
      omega
    cases param with
    | invalid => exact absurd hr (by simp [PostListView.render])
    | last =>
      simp only [PostListView.render] at hr
      cases hpg : (Paginator.mk (Post.published db) 3).page
          (PageParam.int (Paginator.mk (Post.published db) 3).numPages) with
      | error e => rw [hpg] at hr; exact absurd hr (by simp)
      | ok r0 => rw [hpg] at hr
                 cases hr
                 exact hmain _ hpg
    | num m =>
      simp only [PostListView.render] at hr
      cases hpg : (Paginator.mk (Post.published db) 3).page (PageParam.int m) with
      | error e => rw [hpg] at hr; exact absurd hr (by simp)
      | ok r0 => rw [hpg] at hr
                 cases hr
                 exact hmain _ hpg

theorem rendered_pages_witness :
    ((Paginator.mk (Post.published demoDB) 3).pageItems 1).length ≤ 3 :=
  ((rendered_pages_at_most_three demoDB).1 none (PageParam.int 1)
    (Post.published demoDB) none
    ⟨1, (Paginator.mk (Post.published demoDB) 3).pageItems 1, none⟩ rfl rfl).1

/-- C9 as literally stated is false: on an empty database `post_list`
renders a page with 0 < 3 posts although the result set is empty. -/
theorem rendered_pages_counterexample :
    ¬ (∀ db tagSlug param ql tag r,
         postListQuerySet db tagSlug = Except.ok (ql, tag) →
         post_list db tagSlug param = Except.ok r →
         r.posts.length < 3 →
         (r.pageNumber = (Paginator.mk ql 3).numPages ∧ ql ≠ [])) := by
  intro h
  exact (h ⟨[], [], [], 0⟩ none (PageParam.int 1) [] none ⟨1, [], none⟩
    rfl rfl (by decide)).2 rfl

/-- C5: tag-filtered listing.  A slug naming no stored tag makes
`post_list` raise `Http404`; a resolved tag makes the pre-pagination
queryset exactly the published posts carrying that tag; without a slug the
queryset is all published posts. -/
theorem post_list_tag_spec (db : DB) (s : String) :
    ((∀ t ∈ db.tags, t.slug ≠ s) →
       ∀ param, post_list db (some s) param = Except.error ViewError.http404) ∧
    (∀ t ql tg, postListQuerySet db (some s) = Except.ok (ql, tg) → tg = some t →
       t ∈ db.tags ∧ t.slug = s ∧
       ∀ p, p ∈ ql ↔ p ∈ db.posts ∧ p.status = Status.published ∧ t.id ∈ p.tags) ∧
    (∀ ql tg, postListQuerySet db none = Except.ok (ql, tg) →
       tg = none ∧ ∀ p, p ∈ ql ↔ p ∈ db.posts ∧ p.status = Status.published) := by
  refine ⟨?_, ?_, ?_⟩
  · intro hno param
    have hnil : findTagMatches db s = [] := by
      unfold findTagMatches
      rw [List.filter_eq_nil_iff]
      intro t ht
      simpa using hno t ht
    simp only [post_list, postListQuerySet, hnil, getObjectOr404_nil]
  · intro t ql tg hq htg
    subst htg
    simp only [postListQuerySet] at hq
    cases hget : getObjectOr404 (findTagMatches db s) with
    | error e => rw [hget] at hq; exact absurd hq (by simp)
    | ok t0 =>
      rw [hget] at hq
      simp only [Except.ok.injEq, Prod.mk.injEq, Option.some.injEq] at hq
      obtain ⟨hql, ht0⟩ := hq
      rw [← ht0]
      have hrows := getObjectOr404_ok hget
      have htmem : t0 ∈ findTagMatches db s := by
        rw [hrows]
        exact List.mem_singleton.mpr rfl
      have h1 : t0 ∈ db.tags ∧ t0.slug = s := by
        have := List.mem_filter.mp htmem
        exact ⟨this.1, by simpa using this.2⟩
      refine ⟨h1.1, h1.2, ?_⟩
      intro p
      rw [← hql]
      simp only [List.mem_filter, mem_published, List.elem_iff]
      tauto
  · intro ql tg hq
    simp only [postListQuerySet, Except.ok.injEq, Prod.mk.injEq] at hq
    obtain ⟨hql, htg⟩ := hq
    refine ⟨htg.symm, ?_⟩
    intro p
    rw [← hql, mem_published]

theorem post_list_tag_spec_witness :
    post_list demoDB (some missingSlug) PageParam.notAnInt =
      Except.error ViewError.http404 :=
  (post_list_tag_spec demoDB missingSlug).1 (by decide) PageParam.notAnInt

theorem mem_publishedById (db : DB) (postId : Nat) (p : Post) :
    p ∈ publishedById db postId ↔
      p ∈ db.posts ∧ p.id = postId ∧ p.status = Status.published := by
  unfold publishedById
  rw [List.mem_filter]
  simp [Bool.and_eq_true, beq_iff_eq]

theorem mem_activeComments (db : DB) (post : Post) (c : Comment) :
    c ∈ activeComments db post ↔
      c ∈ db.comments ∧ c.postId = post.id ∧ c.active = true := by
  unfold activeComments
  rw [mem_sortByKeyAsc, List.mem_filter]
  simp [Bool.and_eq_true, beq_iff_eq]

theorem post_detail_ok (db : DB) (year month day : Nat) (slug : String)
    (r : PostDetailRender) (h : post_detail db year month day slug = Except.ok r) :
    detailMatches db year month day slug = [r.post] ∧
    r.comments = activeComments db r.post ∧
    r.similarPosts = similar_posts db r.post := by
  unfold post_detail at h
  cases hm : getObjectOr404 (detailMatches db year month day slug) with
  | error e => rw [hm] at h; exact absurd h (by simp)
  | ok p =>
    rw [hm] at h
    simp only [Except.ok.injEq] at h
    refine ⟨?_, ?_, ?_⟩
    · rw [← h]; exact getObjectOr404_ok hm
    · rw [← h]
    · rw [← h]

theorem similar_posts_props (db : DB) (post : Post) :
    (similar_posts db post).length ≤ 4 ∧
    (∀ p ∈ similar_posts db post,
       p ∈ db.posts ∧ p.status = Status.published ∧ p.id ≠ post.id ∧
         ∃ t ∈ p.tags, t ∈ post.tags) ∧
    List.Sorted
      (keyDescRel (fun p : Post => toLex (sameTagsCount post.tags p, p.publish.key)))
      (similar_posts db post) := by
  refine ⟨?_, ?_, ?_⟩
  · simp only [similar_posts, List.length_take]
    exact min_le_left _ _
  · intro p hp
    simp only [similar_posts] at hp
    have hp2 := List.take_subset _ _ hp
    rw [mem_sortByKeyDesc] at hp2
    simp only [List.mem_filter, Bool.and_eq_true, decide_eq_true_eq, List.any_eq_true,
      List.elem_iff] at hp2
    obtain ⟨⟨hmem, hstat⟩, ⟨t, ht1, ht2⟩, hid⟩ := hp2
    exact ⟨hmem, hstat, hid, t, ht1, ht2⟩
  · simp only [similar_posts]
    exact List.Pairwise.sublist (List.take_sublist _ _) (sorted_sortByKeyDesc _ _)

/-- C3: for every post successfully shown by `post_detail`, the rendered
related posts are the `similar_posts` queryset: at most 4 posts, each
published, sharing at least one tag with the shown post and distinct from
it, ordered by shared-tag count descending with ties broken by publish
date descending. -/
theorem post_detail_similar_posts (db : DB) (year month day : Nat) (slug : String)
    (r : PostDetailRender) (h : post_detail db year month day slug = Except.ok r) :
    r.similarPosts = similar_posts db r.post ∧
    r.similarPosts.length ≤ 4 ∧
    (∀ p ∈ r.similarPosts,
       p ∈ db.posts ∧ p.status = Status.published ∧ p.id ≠ r.post.id ∧
         ∃ t ∈ p.tags, t ∈ r.post.tags) ∧
    List.Sorted
      (keyDescRel (fun p : Post => toLex (sameTagsCount r.post.tags p, p.publish.key)))
      r.similarPosts := by
  obtain ⟨-, -, hsim⟩ := post_detail_ok db year month day slug r h
  rw [hsim]
  obtain ⟨h1, h2, h3⟩ := similar_posts_props db r.post
  exact ⟨rfl, h1, h2, h3⟩

theorem post_detail_similar_posts_witness :
    (similar_posts demoDB publishedPost).length ≤ 4 :=
  (post_detail_similar_posts demoDB 2024 6 1 helloSlug
    ⟨publishedPost, activeComments demoDB publishedPost,
      similar_posts demoDB publishedPost⟩ rfl).2.1

/-- C6: `post_detail` raises `Http404` exactly when no stored post is
published with the given slug and publish year/month/day; when the match
is unique, it renders that post (with its active comments and similar
posts). -/
theorem post_detail_404_iff (db : DB) (year month day : Nat) (slug : String) :
    (post_detail db year month day slug = Except.error ViewError.http404 ↔
       ∀ p ∈ db.posts, ¬(p.status = Status.published ∧ p.slug = slug ∧
         p.publish.year = year ∧ p.publish.month = month ∧ p.publish.day = day)) ∧
    (∀ p, detailMatches db year month day slug = [p] →
       post_detail db year month day slug =
         Except.ok ⟨p, activeComments db p, similar_posts db p⟩) := by
  constructor
  · constructor
    · intro h404
      cases hm : detailMatches db year month day slug with
      | nil =>
        intro p hp hcon
        have hpm : p ∈ detailMatches db year month day slug := by
          unfold detailMatches
          rw [List.mem_filter]
          refine ⟨hp, ?_⟩
          simp [hcon.1, hcon.2.1, hcon.2.2.1, hcon.2.2.2.1, hcon.2.2.2.2]
        rw [hm] at hpm
        exact absurd hpm (List.not_mem_nil p)
      | cons x xs =>
        exfalso
        unfold post_detail at h404
        rw [hm] at h404
        cases xs with
        | nil => simp [getObjectOr404] at h404
        | cons y ys => simp [getObjectOr404] at h404
    · intro hall
      have hnil : detailMatches db year month day slug = [] := by
        unfold detailMatches
        rw [List.filter_eq_nil_iff]
        intro p hp
        have hq := hall p hp
        simp only [Bool.and_eq_true, decide_eq_true_eq, beq_iff_eq]
        tauto
      unfold post_detail
      rw [hnil]
      rfl
  · intro p hp
    unfold post_detail
    rw [hp]
    rfl

theorem post_detail_404_iff_witness :
    post_detail demoDB 2024 6 1 helloSlug =
      Except.ok ⟨publishedPost, activeComments demoDB publishedPost,
        similar_posts demoDB publishedPost⟩ :=
  (post_detail_404_iff demoDB 2024 6 1 helloSlug).2 publishedPost (by decide)

theorem post_comment_ok_some (db : DB) (postId : Nat) (data : CommentFormData)
    (now : Nat) (db' : DB) (c : Comment)
    (h : post_comment db postId Method.post data now = Except.ok (db', some c)) :
    ∃ post, publishedById db postId = [post] ∧
      CommentForm.is_valid data = true ∧
      c = ⟨db.nextCommentId, post.id, (CommentForm.cleaned data).name,
        (CommentForm.cleaned data).email, (CommentForm.cleaned data).body,
        now, now, true⟩ ∧
      db' = { db with
        comments := db.comments ++ [c],
        nextCommentId := db.nextCommentId + 1 } := by
  unfold post_comment at h
  cases hm : getObjectOr404 (publishedById db postId) with
  | error e => rw [hm] at h; exact absurd h (by simp)
  | ok post =>
    rw [hm] at h
    by_cases hv : CommentForm.is_valid data = true
    · simp only [hv, eq_self_iff_true, if_true, Except.ok.injEq, Prod.mk.injEq,
        Option.some.injEq] at h
      obtain ⟨hdb, hc⟩ := h
      refine ⟨post, getObjectOr404_ok hm, hv, hc.symm, ?_⟩
      rw [← hdb, ← hc]
    · simp only [eq_false_of_ne_true hv, Bool.false_eq_true, if_false, Except.ok.injEq,
        Prod.mk.injEq] at h
      exact absurd h.2 (by simp)

/-- C10: the comments rendered by `post_detail` are exactly the stored
comments of the shown post whose `active` flag is `True` (an inactive
comment is never displayed); and a comment saved through `post_comment`
has `active = True` by default, so it appears among the rendered comments
of a subsequent `post_detail` of its post. -/
theorem comments_active_visibility (db : DB) :
    (∀ year month day slug r, post_detail db year month day slug = Except.ok r →
       ∀ c, c ∈ r.comments ↔
         c ∈ db.comments ∧ c.postId = r.post.id ∧ c.active = true) ∧
    (∀ postId data now db' c,
       post_comment db postId Method.post data now = Except.ok (db', some c) →
       c.active = true ∧
         ∀ year month day slug r, post_detail db' year month day slug = Except.ok r →
           r.post.id = c.postId → c ∈ r.comments) := by
  constructor
  · intro year month day slug r h c
    obtain ⟨-, hc, -⟩ := post_detail_ok db year month day slug r h
    rw [hc, mem_activeComments]
  · intro postId data now db' c h
    obtain ⟨post, hrows, hv, hceq, hdb⟩ := post_comment_ok_some db postId data now db' c h
    have hactive : c.active = true := by rw [hceq]
    refine ⟨hactive, ?_⟩
    intro year month day slug r hdet hid
    obtain ⟨-, hcomm, -⟩ := post_detail_ok db' year month day slug r hdet
    rw [hcomm, mem_activeComments]
    refine ⟨?_, hid.symm, hactive⟩
    rw [hdb]
    simp

theorem comments_active_visibility_witness :
    ∀ c, c ∈ activeComments demoDB publishedPost ↔
      c ∈ demoDB.comments ∧ c.postId = publishedPost.id ∧ c.active = true :=
  (comments_active_visibility demoDB).1 2024 6 1 helloSlug
    ⟨publishedPost, activeComments demoDB publishedPost,
      similar_posts demoDB publishedPost⟩ rfl

/-- C8: a POST to `post_comment` with valid data stores exactly one new
comment whose `post` FK is the published post named by `post_id`; invalid
data leaves the database unchanged and stores nothing; a `post_id` naming
no published post raises `Http404`; a non-POST request is rejected by
`require_POST` (405) without touching the database. -/
theorem post_comment_spec (db : DB) (postId : Nat) (data : CommentFormData)
    (now : Nat) :
    (∀ post, publishedById db postId = [post] → CommentForm.is_valid data = true →
       ∃ c, post_comment db postId Method.post data now =
           Except.ok ({ db with
             comments := db.comments ++ [c],
             nextCommentId := db.nextCommentId + 1 }, some c) ∧
         c.postId = post.id ∧ post ∈ db.posts ∧ post.status = Status.published) ∧
    (∀ post, publishedById db postId = [post] → CommentForm.is_valid data = false →
       post_comment db postId Method.post data now = Except.ok (db, none)) ∧
    ((∀ p ∈ db.posts, ¬(p.id = postId ∧ p.status = Status.published)) →
       post_comment db postId Method.post data now = Except.error ViewError.http404) ∧
    post_comment db postId Method.get data now =
      Except.error ViewError.methodNotAllowed := by
  refine ⟨?_, ?_, ?_, rfl⟩
  · intro post hrows hv
    have hget : getObjectOr404 (publishedById db postId) = Except.ok post := by
      rw [hrows]; rfl
    have hmem : post ∈ publishedById db postId := by
      rw [hrows]; exact List.mem_singleton.mpr rfl
    rw [mem_publishedById] at hmem
    refine ⟨⟨db.nextCommentId, post.id, (CommentForm.cleaned data).name,
      (CommentForm.cleaned data).email, (CommentForm.cleaned data).body,
      now, now, true⟩, ?_, rfl, hmem.1, hmem.2.2⟩
    simp only [post_comment, hget, hv, eq_self_iff_true, if_true]
  · intro post hrows hv
    have hget : getObjectOr404 (publishedById db postId) = Except.ok post := by
      rw [hrows]; rfl
    simp only [post_comment, hget, hv, Bool.false_eq_true, if_false]
  · intro hall
    have hnil : publishedById db postId = [] := by
      unfold publishedById
      rw [List.filter_eq_nil_iff]
      intro p hp
      have hq := hall p hp
      simp only [Bool.and_eq_true, decide_eq_true_eq, beq_iff_eq]
      tauto
    unfold post_comment
    rw [hnil]
    rfl

theorem post_comment_spec_witness :
    ∃ c, post_comment demoDB 2 Method.post ⟨"Ann", "ann@example.com", "Nice post"⟩ 99 =
        Except.ok ({ demoDB with
          comments := demoDB.comments ++ [c],
          nextCommentId := demoDB.nextCommentId + 1 }, some c) ∧
      c.postId = publishedPost.id ∧ publishedPost ∈ demoDB.posts ∧
      publishedPost.status = Status.published :=
  (post_comment_spec demoDB 2 ⟨"Ann", "ann@example.com", "Nice post"⟩ 99).1
    publishedPost (by decide) (by decide)

theorem shareMessage_contains (cd : EmailFormData) (post : Post) (postUrl : String) :
    (∃ a b : String, shareMessage cd post postUrl = a ++ post.title ++ b) ∧
    (∃ a b : String, shareMessage cd post postUrl = a ++ postUrl ++ b) ∧
    (∃ a b : String, shareMessage cd post postUrl = a ++ cd.comments ++ b) := by
  unfold shareMessage
  refine ⟨⟨"Read ", " at " ++ postUrl ++ "\n\n" ++ cd.name ++ "\x27s comments: " ++
      cd.comments, ?_⟩,
    ⟨"Read " ++ post.title ++ " at ", "\n\n" ++ cd.name ++ "\x27s comments: " ++
      cd.comments, ?_⟩,
    ⟨"Read " ++ post.title ++ " at " ++ postUrl ++ "\n\n" ++ cd.name ++
      "\x27s comments: ", "", ?_⟩⟩
  all_goals simp [String.append_assoc]

/-- C7: a POST to `post_share` with a valid form sends exactly one email,
addressed to the form's `to` recipient, whose subject is the
name/email/title format string and whose message contains the post title,
the post's absolute URL and the sender's comments, and renders
`sent = True`; a GET or an invalid form sends nothing and renders
`sent = False`; a `post_id` naming no published post raises `Http404`
(so no email is sent). -/
theorem post_share_spec (db : DB) (postId : Nat) (req : ShareRequest) :
    (∀ post, publishedById db postId = [post] → req.method = Method.post →
       EmailPostForm.is_valid req.formData = true →
       post_share db postId req =
         Except.ok (⟨post, true⟩,
           [⟨shareSubject (EmailPostForm.cleaned req.formData) post,
             shareMessage (EmailPostForm.cleaned req.formData) post
               (req.uriBase ++ post.get_absolute_url),
             none, [(EmailPostForm.cleaned req.formData).toEmail]⟩]) ∧
       (∃ a b : String, shareMessage (EmailPostForm.cleaned req.formData) post
           (req.uriBase ++ post.get_absolute_url) = a ++ post.title ++ b) ∧
       (∃ a b : String, shareMessage (EmailPostForm.cleaned req.formData) post
           (req.uriBase ++ post.get_absolute_url) =
             a ++ (req.uriBase ++ post.get_absolute_url) ++ b) ∧
       (∃ a b : String, shareMessage (EmailPostForm.cleaned req.formData) post
           (req.uriBase ++ post.get_absolute_url) =
             a ++ (EmailPostForm.cleaned req.formData).comments ++ b)) ∧
    (∀ post, publishedById db postId = [post] → req.method = Method.get →
       post_share db postId req = Except.ok (⟨post, false⟩, [])) ∧
    (∀ post, publishedById db postId = [post] → req.method = Method.post →
       EmailPostForm.is_valid req.formData = false →
       post_share db postId req = Except.ok (⟨post, false⟩, [])) ∧
    ((∀ p ∈ db.posts, ¬(p.id = postId ∧ p.status = Status.published)) →
       post_share db postId req = Except.error ViewError.http404) := by
  refine ⟨?_, ?_, ?_, ?_⟩
  · intro post hrows hmeth hv
    have hget : getObjectOr404 (publishedById db postId) = Except.ok post := by
      rw [hrows]; rfl
    obtain ⟨c1, c2, c3⟩ := shareMessage_contains (EmailPostForm.cleaned req.formData)
      post (req.uriBase ++ post.get_absolute_url)
    refine ⟨?_, c1, c2, c3⟩
    simp only [post_share, hget, hmeth, hv, eq_self_iff_true, if_true]
  · intro post hrows hmeth
    have hget : getObjectOr404 (publishedById db postId) = Except.ok post := by
      rw [hrows]; rfl
    simp only [post_share, hget, hmeth]
  · intro post hrows hmeth hv
    have hget : getObjectOr404 (publishedById db postId) = Except.ok post := by
      rw [hrows]; rfl
    simp only [post_share, hget, hmeth, hv, Bool.false_eq_true, if_false]
  · intro hall
    have hnil : publishedById db postId = [] := by
      unfold publishedById
      rw [List.filter_eq_nil_iff]
      intro p hp
      have hq := hall p hp
      simp only [Bool.and_eq_true, decide_eq_true_eq, beq_iff_eq]
      tauto
    unfold post_share
    rw [hnil]
    rfl

theorem post_share_spec_witness :
    post_share demoDB 2 demoShareReq =
      Except.ok (⟨publishedPost, true⟩,
        [⟨shareSubject (EmailPostForm.cleaned demoShareReq.formData) publishedPost,
          shareMessage (EmailPostForm.cleaned demoShareReq.formData) publishedPost
            (demoShareReq.uriBase ++ publishedPost.get_absolute_url),
          none, [(EmailPostForm.cleaned demoShareReq.formData).toEmail]⟩]) :=
  ((post_share_spec demoDB 2 demoShareReq).1 publishedPost (by decide) rfl
    (by decide)).1

/-- C4: when the GET parameters carry a `query` and the (spec-modelled)
`SearchForm` validates, `post_search` renders exactly the published posts
whose title-to-query similarity exceeds 0.1, ordered by similarity
descending; with no `query` parameter or an invalid form, the result list
is empty and `query` is `None`. -/
theorem post_search_spec (sim : String → String → ℚ) (db : DB) (qp : Option String) :
    ((qp = none → post_search sim db qp = ⟨none, []⟩) ∧
     (∀ raw, qp = some raw → SearchForm.cleanQuery raw = none →
        post_search sim db qp = ⟨none, []⟩)) ∧
    (∀ raw q, qp = some raw → SearchForm.cleanQuery raw = some q →
       (post_search sim db qp).query = some q ∧
       (∀ p, p ∈ (post_search sim db qp).results ↔
          p ∈ db.posts ∧ p.status = Status.published ∧ (1 : ℚ) / 10 < sim p.title q) ∧
       List.Sorted (keyDescRel (fun p : Post => sim p.title q))
         (post_search sim db qp).results) := by
  refine ⟨⟨?_, ?_⟩, ?_⟩
  · intro h
    rw [h]
    exact rfl
  · intro raw hq hc
    rw [hq]
    simp only [post_search, hc]
  · intro raw q hq hc
    subst hq
    simp only [post_search, hc]
    refine ⟨trivial, ?_, sorted_sortByKeyDesc _ _⟩
    intro p
    rw [mem_sortByKeyDesc]
    simp only [List.mem_filter, Bool.and_eq_true, decide_eq_true_eq]
    tauto

theorem post_search_spec_witness :
    (post_search (fun _ _ => (1 : ℚ)) demoDB (some helloQuery)).query = some helloQuery :=
  ((post_search_spec (fun _ _ => (1 : ℚ)) demoDB (some helloQuery)).2 helloQuery helloQuery
    rfl (by decide)).1

end Blog
